import Mathlib

/-!
# Verification of `Practicas/Practica3/logistic_reg.py`

A shallow embedding of the logistic-regression routines of the repository
(`sigmoid`, `compute_cost`, `compute_gradient`, `compute_cost_reg`,
`compute_gradient_reg`, `gradient_descent`, `predict`) over the real numbers,
with vectors as functions `Fin n → ℝ` and the feature matrix as
`Fin m → Fin n → ℝ`.  Python/NumPy float arithmetic is idealised as real
arithmetic; `np.dot`, `np.sum` and elementwise operations become finite sums
and pointwise functions.
-/

open Real

noncomputable section

namespace LogisticReg

/-- NumPy `np.dot(X, w)` for an `(m,n)` matrix and a length-`n` vector:
row `i` is `∑ j, X i j * w j`. -/
def matVec {m n : ℕ} (X : Fin m → Fin n → ℝ) (w : Fin n → ℝ) : Fin m → ℝ :=
  fun i => ∑ j, X i j * w j

/-- NumPy `np.dot(X.T, v)` for an `(m,n)` matrix and a length-`m` vector:
entry `j` is `∑ i, X i j * v i`. -/
def matTVec {m n : ℕ} (X : Fin m → Fin n → ℝ) (v : Fin m → ℝ) : Fin n → ℝ :=
  fun j => ∑ i, X i j * v i

/-- Source `sigmoid(z)`: `g = 1 / (1 + np.exp(-z))` (elementwise on arrays; here the
scalar function, applied pointwise where the source broadcasts). -/
def sigmoid (z : ℝ) : ℝ := 1 / (1 + Real.exp (-z))

/-- Source `compute_cost(X, y, w, b, lambda_=None)`:
`z = np.dot(X, w) + b`, `h = sigmoid(z)`,
`total_cost = -1 / m * np.sum(y * np.log(h) + (1 - y) * np.log(1 - h))`.
The `lambda_` argument is an unused placeholder in the source. -/
def compute_cost {m n : ℕ} (X : Fin m → Fin n → ℝ) (y : Fin m → ℝ)
    (w : Fin n → ℝ) (b : ℝ) (lambda_ : ℝ) : ℝ :=
  let h : Fin m → ℝ := fun i => sigmoid (matVec X w i + b);
  -1 / (m : ℝ) * ∑ i, (y i * Real.log (h i) + (1 - y i) * Real.log (1 - h i))

/-- Source `compute_gradient(X, y, w, b, lambda_=None)`:
`h = sigmoid(np.dot(X, w) + b)`,
`dj_db = 1 / m * np.sum(h - y)`, `dj_dw = 1 / m * np.dot(X.T, (h - y))`.
The `lambda_` argument is an unused placeholder in the source. -/
def compute_gradient {m n : ℕ} (X : Fin m → Fin n → ℝ) (y : Fin m → ℝ)
    (w : Fin n → ℝ) (b : ℝ) (lambda_ : ℝ) : ℝ × (Fin n → ℝ) :=
  let h : Fin m → ℝ := fun i => sigmoid (matVec X w i + b);
  (1 / (m : ℝ) * ∑ i, (h i - y i),
   fun j => 1 / (m : ℝ) * matTVec X (fun i => h i - y i) j)

/-- Source `compute_cost_reg(X, y, w, b, lambda_=1)`:
the unregularized cross-entropy `cost` plus
`reg_term = (lambda_ / (2 * m)) * np.sum(w**2)`. -/
def compute_cost_reg {m n : ℕ} (X : Fin m → Fin n → ℝ) (y : Fin m → ℝ)
    (w : Fin n → ℝ) (b : ℝ) (lambda_ : ℝ) : ℝ :=
  let y_pred : Fin m → ℝ := fun i => sigmoid (matVec X w i + b);
  let cost : ℝ :=
    -1 / (m : ℝ) *
      ∑ i, (y i * Real.log (y_pred i) + (1 - y i) * Real.log (1 - y_pred i));
  let reg_term : ℝ := lambda_ / (2 * (m : ℝ)) * ∑ j, w j ^ 2;
  cost + reg_term

/-- Source `compute_gradient_reg(X, y, w, b, lambda_=1)`:
`dj_db = (1 / m) * np.sum(y_pred - y)`,
`dj_dw = (1 / m) * np.dot(X.T, y_pred - y) + (lambda_ / m) * w`. -/
def compute_gradient_reg {m n : ℕ} (X : Fin m → Fin n → ℝ) (y : Fin m → ℝ)
    (w : Fin n → ℝ) (b : ℝ) (lambda_ : ℝ) : ℝ × (Fin n → ℝ) :=
  let y_pred : Fin m → ℝ := fun i => sigmoid (matVec X w i + b);
  (1 / (m : ℝ) * ∑ i, (y_pred i - y i),
   fun j => 1 / (m : ℝ) * matTVec X (fun i => y_pred i - y i) j
     + lambda_ / (m : ℝ) * w j)

end LogisticReg

namespace LogisticReg

/-- The type of the `cost_function` argument of `gradient_descent`:
`cost_function(X, y, w, b, lambda_)` returning a scalar. -/
def CostFn (m n : ℕ) : Type :=
  (Fin m → Fin n → ℝ) → (Fin m → ℝ) → (Fin n → ℝ) → ℝ → ℝ → ℝ

/-- The type of the `gradient_function` argument of `gradient_descent`:
`gradient_function(X, y, w, b, lambda_)` returning `(dj_db, dj_dw)`. -/
def GradFn (m n : ℕ) : Type :=
  (Fin m → Fin n → ℝ) → (Fin m → ℝ) → (Fin n → ℝ) → ℝ → ℝ → ℝ × (Fin n → ℝ)

/-- The body of one iteration of the `for i in range(num_iters)` loop of
`gradient_descent`, acting on the pair `(w, b)`:
`dj_db, dj_dw = gradient_function(X, y, w, b, lambda_)`,
then `w -= alpha * dj_dw` and `b -= alpha * dj_db`. -/
def gdStep {m n : ℕ} (gradient_function : GradFn m n) (X : Fin m → Fin n → ℝ)
    (y : Fin m → ℝ) (alpha lambda_ : ℝ) (p : (Fin n → ℝ) × ℝ) :
    (Fin n → ℝ) × ℝ :=
  let g := gradient_function X y p.1 p.2 lambda_
  (fun j => p.1 j - alpha * g.2 j, p.2 - alpha * g.1)

/-- The loop of `gradient_descent`, by recursion on the remaining iteration
count: each pass updates `(w, b)` via `gdStep` and then records
`cost_function(X, y, w, b, lambda_)` (at the updated parameters) in the
history, in iteration order. -/
def gdLoop {m n : ℕ} (cost_function : CostFn m n) (gradient_function : GradFn m n)
    (X : Fin m → Fin n → ℝ) (y : Fin m → ℝ) (alpha lambda_ : ℝ) :
    ℕ → (Fin n → ℝ) × ℝ → ((Fin n → ℝ) × ℝ) × List ℝ
  | 0, p => (p, [])
  | Nat.succ k, p =>
    let p' := gdStep gradient_function X y alpha lambda_ p
    let cost := cost_function X y p'.1 p'.2 lambda_
    let r := gdLoop cost_function gradient_function X y alpha lambda_ k p'
    (r.1, cost :: r.2)

/-- Source `gradient_descent(X, y, w_in, b_in, cost_function, gradient_function,
alpha, num_iters, lambda_=None)`: starts from a copy of `w_in` and `b = b_in`,
runs the loop `num_iters` times, and returns `(w, b, J_history)`.
`J_history` is modelled as a list whose `i`-th element is the value the source
stores at `J_history[i]` (the source preallocates `np.zeros(num_iters)` and
writes every index). -/
def gradient_descent {m n : ℕ} (X : Fin m → Fin n → ℝ) (y : Fin m → ℝ)
    (w_in : Fin n → ℝ) (b_in : ℝ) (cost_function : CostFn m n)
    (gradient_function : GradFn m n) (alpha : ℝ) (num_iters : ℕ)
    (lambda_ : ℝ) : (Fin n → ℝ) × ℝ × List ℝ :=
  let w := w_in
  let b := b_in
  let r := gdLoop cost_function gradient_function X y alpha lambda_ num_iters (w, b)
  (r.1.1, r.1.2, r.2)

/-- Source `predict(X, w, b)`: `h = sigmoid(np.dot(X, w) + b)`;
`p = (h >= 0.5).astype(int)`, one integer (0 or 1) per example. -/
def predict {m n : ℕ} (X : Fin m → Fin n → ℝ) (w : Fin n → ℝ) (b : ℝ) :
    Fin m → ℤ :=
  fun i => if (0.5 : ℝ) ≤ sigmoid (matVec X w i + b) then 1 else 0

/-- The array buffers live during a `gradient_descent` call: `caller` holds
the contents of the array object the caller passed as `w_in`, and `w` holds
the contents of the distinct array object created by `w = w_in.copy()`.
Keeping them as separate fields reflects that `copy` yields a buffer disjoint
from the caller's; an aliasing `w = w_in` would instead be a single shared
field. -/
structure GDBuffers (n : ℕ) where
  caller : Fin n → ℝ
  w : Fin n → ℝ
  b : ℝ

/-- One iteration of the `gradient_descent` loop on the buffer state: the
in-place updates `w -= alpha * dj_dw` and `b -= alpha * dj_db` write through
the local references `w` and `b`, so only the `w` and `b` components change;
no statement of the loop body writes to the caller's buffer. -/
def gdStepBuf {m n : ℕ} (gradient_function : GradFn m n) (X : Fin m → Fin n → ℝ)
    (y : Fin m → ℝ) (alpha lambda_ : ℝ) (s : GDBuffers n) : GDBuffers n :=
  let g := gradient_function X y s.w s.b lambda_
  { caller := s.caller
    w := fun j => s.w j - alpha * g.2 j
    b := s.b - alpha * g.1 }

/-- Model of `gradient_descent` at the level of array buffers: the initial state copies
`w_in` into the fresh `w` buffer (`w = w_in.copy()`), then the loop body runs
`num_iters` times. The returned state's `caller` component is the content of
the caller's `w_in` array when the call returns. -/
def gradient_descentBuf {m n : ℕ} (X : Fin m → Fin n → ℝ) (y : Fin m → ℝ)
    (w_in : Fin n → ℝ) (b_in : ℝ) (gradient_function : GradFn m n)
    (alpha : ℝ) (num_iters : ℕ) (lambda_ : ℝ) : GDBuffers n :=
  (gdStepBuf gradient_function X y alpha lambda_)^[num_iters]
    { caller := w_in, w := w_in, b := b_in }

end LogisticReg

namespace LogisticReg

/-- C8: for every real `z`, `sigmoid z` lies in the open interval `(0, 1)`,
`sigmoid 0 = 0.5`, and `sigmoid (-z) = 1 - sigmoid z`. -/
theorem sigmoid_range_half_symm (z : ℝ) :
    (0 < sigmoid z ∧ sigmoid z < 1) ∧ sigmoid 0 = 0.5 ∧
      sigmoid (-z) = 1 - sigmoid z := by
  have hz : 0 < Real.exp (-z) := Real.exp_pos _
  have hz' : 0 < Real.exp z := Real.exp_pos _
  have hden : (0 : ℝ) < 1 + Real.exp (-z) := by linarith
  have hden' : (0 : ℝ) < 1 + Real.exp z := by linarith
  refine ⟨⟨div_pos one_pos hden, ?_⟩, ?_, ?_⟩
  · rw [sigmoid, div_lt_one hden]
    linarith
  · rw [sigmoid]
    norm_num
  · rw [sigmoid, sigmoid, neg_neg]
    have hmul : Real.exp z * Real.exp (-z) = 1 := by
      rw [← Real.exp_add]
      simp
    field_simp
    nlinarith [hmul]

/-- C1: every entry of `predict X w b` is exactly 0 or 1, and entry `i` is 1
exactly when `sigmoid (X_i · w + b) ≥ 0.5`, else 0. -/
theorem predict_binary_threshold {m n : ℕ} (X : Fin m → Fin n → ℝ)
    (w : Fin n → ℝ) (b : ℝ) (i : Fin m) :
    (predict X w b i = 0 ∨ predict X w b i = 1) ∧
      (predict X w b i = 1 ↔ (0.5 : ℝ) ≤ sigmoid (matVec X w i + b)) ∧
      (predict X w b i = 0 ↔ ¬ (0.5 : ℝ) ≤ sigmoid (matVec X w i + b)) := by
  unfold predict
  by_cases h : (0.5 : ℝ) ≤ sigmoid (matVec X w i + b) <;> simp [h]

/-- C3: `gradient_descent` with `num_iters = 0` returns `w_in`, `b_in` and an
empty loss history. -/
theorem gradient_descent_zero_iters {m n : ℕ} (X : Fin m → Fin n → ℝ)
    (y : Fin m → ℝ) (w_in : Fin n → ℝ) (b_in : ℝ) (cost_function : CostFn m n)
    (gradient_function : GradFn m n) (alpha lambda_ : ℝ) :
    gradient_descent X y w_in b_in cost_function gradient_function alpha 0 lambda_
      = (w_in, b_in, ([] : List ℝ)) := rfl

/-- C4: with `λ = 0` the regularized cost coincides with the unregularized
cost, for every dataset with at least one example. -/
theorem compute_cost_reg_lambda_zero {m n : ℕ} (X : Fin m → Fin n → ℝ)
    (y : Fin m → ℝ) (w : Fin n → ℝ) (b lambda_ : ℝ) (hm : 0 < m) :
    compute_cost_reg X y w b 0 = compute_cost X y w b lambda_ := by
  unfold compute_cost_reg compute_cost
  simp

/-- Witness for C4 at `m = n = 1`, `X = [[0]]`, `y = [0]`, `w = [0]`, `b = 0`,
with `lambda_ = 5` on the unregularized side. -/
theorem compute_cost_reg_lambda_zero_witness :
    0 < 1 ∧
      compute_cost_reg ![![(0 : ℝ)]] ![(0 : ℝ)] ![(0 : ℝ)] 0 0
        = compute_cost ![![(0 : ℝ)]] ![(0 : ℝ)] ![(0 : ℝ)] 0 5 :=
  ⟨by decide,
    compute_cost_reg_lambda_zero ![![(0 : ℝ)]] ![(0 : ℝ)] ![(0 : ℝ)] 0 5
      (by decide)⟩

/-- C5: with `λ = 0` the regularized gradient coincides with the
unregularized gradient, for every dataset with at least one example. -/
theorem compute_gradient_reg_lambda_zero {m n : ℕ} (X : Fin m → Fin n → ℝ)
    (y : Fin m → ℝ) (w : Fin n → ℝ) (b lambda_ : ℝ) (hm : 0 < m) :
    compute_gradient_reg X y w b 0 = compute_gradient X y w b lambda_ := by
  unfold compute_gradient_reg compute_gradient
  simp

/-- Witness for C5 at `m = n = 1`, `X = [[0]]`, `y = [0]`, `w = [0]`, `b = 0`,
with `lambda_ = 5` on the unregularized side. -/
theorem compute_gradient_reg_lambda_zero_witness :
    0 < 1 ∧
      compute_gradient_reg ![![(0 : ℝ)]] ![(0 : ℝ)] ![(0 : ℝ)] 0 0
        = compute_gradient ![![(0 : ℝ)]] ![(0 : ℝ)] ![(0 : ℝ)] 0 5 :=
  ⟨by decide,
    compute_gradient_reg_lambda_zero ![![(0 : ℝ)]] ![(0 : ℝ)] ![(0 : ℝ)] 0 5
      (by decide)⟩

/-- C6: `compute_gradient_reg` returns
`dj_db = (1/m)·Σ(h - y)` and `dj_dw_j = (1/m)·(Xᵀ(h - y))_j + (λ/m)·w_j`
with `h_i = sigmoid(X_i·w + b)`; the `(λ/m)·w` term is added to the weight
gradient only, and `dj_db` equals the unregularized bias gradient. -/
theorem compute_gradient_reg_spec {m n : ℕ} (X : Fin m → Fin n → ℝ)
    (y : Fin m → ℝ) (w : Fin n → ℝ) (b lambda_ : ℝ) (hm : 0 < m) :
    (compute_gradient_reg X y w b lambda_).1
        = 1 / (m : ℝ) * ∑ i, (sigmoid (matVec X w i + b) - y i) ∧
      (∀ j, (compute_gradient_reg X y w b lambda_).2 j
        = 1 / (m : ℝ) * (∑ i, X i j * (sigmoid (matVec X w i + b) - y i))
            + lambda_ / (m : ℝ) * w j) ∧
      (compute_gradient_reg X y w b lambda_).1
        = (compute_gradient X y w b lambda_).1 ∧
      (∀ j, (compute_gradient_reg X y w b lambda_).2 j
        = (compute_gradient X y w b lambda_).2 j + lambda_ / (m : ℝ) * w j) :=
  ⟨rfl, fun _ => rfl, rfl, fun _ => rfl⟩

/-- Witness for C6 at `m = n = 1`, `X = [[0]]`, `y = [0]`, `w = [0]`, `b = 0`,
`λ = 1`. -/
theorem compute_gradient_reg_spec_witness :
    0 < 1 ∧
      ((compute_gradient_reg ![![(0 : ℝ)]] ![(0 : ℝ)] ![(0 : ℝ)] 0 1).1
        = 1 / ((1 : ℕ) : ℝ)
            * ∑ i, (sigmoid (matVec ![![(0 : ℝ)]] ![(0 : ℝ)] i + 0) - ![(0 : ℝ)] i) ∧
      (∀ j, (compute_gradient_reg ![![(0 : ℝ)]] ![(0 : ℝ)] ![(0 : ℝ)] 0 1).2 j
        = 1 / ((1 : ℕ) : ℝ)
            * (∑ i, ![![(0 : ℝ)]] i j
                * (sigmoid (matVec ![![(0 : ℝ)]] ![(0 : ℝ)] i + 0) - ![(0 : ℝ)] i))
            + 1 / ((1 : ℕ) : ℝ) * ![(0 : ℝ)] j) ∧
      (compute_gradient_reg ![![(0 : ℝ)]] ![(0 : ℝ)] ![(0 : ℝ)] 0 1).1
        = (compute_gradient ![![(0 : ℝ)]] ![(0 : ℝ)] ![(0 : ℝ)] 0 1).1 ∧
      (∀ j, (compute_gradient_reg ![![(0 : ℝ)]] ![(0 : ℝ)] ![(0 : ℝ)] 0 1).2 j
        = (compute_gradient ![![(0 : ℝ)]] ![(0 : ℝ)] ![(0 : ℝ)] 0 1).2 j
            + 1 / ((1 : ℕ) : ℝ) * ![(0 : ℝ)] j)) :=
  ⟨by decide,
    compute_gradient_reg_spec ![![(0 : ℝ)]] ![(0 : ℝ)] ![(0 : ℝ)] 0 1 (by decide)⟩

/-- C10: `compute_cost` and `compute_gradient` ignore their `lambda_`
argument: any two values give identical results. -/
theorem cost_and_gradient_ignore_lambda {m n : ℕ} (X : Fin m → Fin n → ℝ)
    (y : Fin m → ℝ) (w : Fin n → ℝ) (b : ℝ) (l1 l2 : ℝ) (hm : 0 < m) :
    compute_cost X y w b l1 = compute_cost X y w b l2 ∧
      compute_gradient X y w b l1 = compute_gradient X y w b l2 :=
  ⟨rfl, rfl⟩

/-- Witness for C10 at `m = n = 1`, `λ1 = 3`, `λ2 = 7`. -/
theorem cost_and_gradient_ignore_lambda_witness :
    0 < 1 ∧
      (compute_cost ![![(0 : ℝ)]] ![(0 : ℝ)] ![(0 : ℝ)] 0 3
          = compute_cost ![![(0 : ℝ)]] ![(0 : ℝ)] ![(0 : ℝ)] 0 7 ∧
        compute_gradient ![![(0 : ℝ)]] ![(0 : ℝ)] ![(0 : ℝ)] 0 3
          = compute_gradient ![![(0 : ℝ)]] ![(0 : ℝ)] ![(0 : ℝ)] 0 7) :=
  ⟨by decide,
    cost_and_gradient_ignore_lambda ![![(0 : ℝ)]] ![(0 : ℝ)] ![(0 : ℝ)] 0 3 7
      (by decide)⟩

/-- The accumulating loop `gdLoop` in closed form: running `k` iterations from
parameters `p` ends at the `k`-th iterate of the loop body `gdStep`, and the
recorded history lists, in order, the cost at the parameters reached after
`i + 1` loop-body applications, for `i = 0, …, k - 1`. -/
theorem gdLoop_eq_iterate {m n : ℕ} (cost_function : CostFn m n)
    (gradient_function : GradFn m n) (X : Fin m → Fin n → ℝ) (y : Fin m → ℝ)
    (alpha lambda_ : ℝ) :
    ∀ (k : ℕ) (p : (Fin n → ℝ) × ℝ),
      gdLoop cost_function gradient_function X y alpha lambda_ k p
        = ((gdStep gradient_function X y alpha lambda_)^[k] p,
           (List.range k).map (fun i =>
             cost_function X y
               ((gdStep gradient_function X y alpha lambda_)^[i + 1] p).1
               ((gdStep gradient_function X y alpha lambda_)^[i + 1] p).2
               lambda_)) := by
  intro k
  induction k with
  | zero => intro p; simp [gdLoop]
  | succ k ih =>
    intro p
    simp only [gdLoop, ih, List.range_succ_eq_map, List.map_cons, List.map_map,
      Function.iterate_succ_apply, Function.iterate_one,
      Function.iterate_zero_apply, Function.comp_def, Prod.mk.injEq,
      List.cons.injEq]

/-- C2: `gradient_descent` runs exactly `num_iters` iterations of the loop
body `gdStep` (obtain the gradient at the current parameters, update `w` and
`b`), records at index `i` of the loss history the cost evaluated at the
parameters reached after `i + 1` updates, and returns a history of length
`num_iters` together with the parameters after `num_iters` updates. -/
theorem gradient_descent_spec {m n : ℕ} (X : Fin m → Fin n → ℝ)
    (y : Fin m → ℝ) (w_in : Fin n → ℝ) (b_in : ℝ) (cost_function : CostFn m n)
    (gradient_function : GradFn m n) (alpha : ℝ) (num_iters : ℕ)
    (lambda_ : ℝ) :
    gradient_descent X y w_in b_in cost_function gradient_function alpha
        num_iters lambda_
      = (((gdStep gradient_function X y alpha lambda_)^[num_iters]
            (w_in, b_in)).1,
         ((gdStep gradient_function X y alpha lambda_)^[num_iters]
            (w_in, b_in)).2,
         (List.range num_iters).map (fun i =>
           cost_function X y
             ((gdStep gradient_function X y alpha lambda_)^[i + 1]
                (w_in, b_in)).1
             ((gdStep gradient_function X y alpha lambda_)^[i + 1]
                (w_in, b_in)).2
             lambda_)) ∧
      (gradient_descent X y w_in b_in cost_function gradient_function alpha
          num_iters lambda_).2.2.length = num_iters := by
  have h := gdLoop_eq_iterate cost_function gradient_function X y alpha lambda_
    num_iters (w_in, b_in)
  simp only [gradient_descent]
  rw [h]
  simp

/-- C7: for a dataset with at least one example and a weight vector of
nonzero squared norm, the regularized cost at `λ = 10` strictly exceeds the
regularized cost at `λ = 0`. -/
theorem compute_cost_reg_lambda_ten_gt_zero {m n : ℕ} (X : Fin m → Fin n → ℝ)
    (y : Fin m → ℝ) (w : Fin n → ℝ) (b : ℝ) (hm : 0 < m)
    (hw : 0 < ∑ j, w j ^ 2) :
    compute_cost_reg X y w b 10 > compute_cost_reg X y w b 0 := by
  have hm' : (0 : ℝ) < (m : ℝ) := by exact_mod_cast hm
  have h2m : (0 : ℝ) < 2 * (m : ℝ) := by linarith
  have hpos : (0 : ℝ) < 10 / (2 * (m : ℝ)) * ∑ j, w j ^ 2 :=
    mul_pos (div_pos (by norm_num) h2m) hw
  simp only [compute_cost_reg, zero_div, zero_mul, add_zero]
  linarith

/-- Witness for C7 at `m = n = 1`, `X = [[0]]`, `y = [0]`, `w = [1]`,
`b = 0`. -/
theorem compute_cost_reg_lambda_ten_gt_zero_witness :
    0 < 1 ∧ (0 : ℝ) < (∑ j, (![(1 : ℝ)]) j ^ 2) ∧
      compute_cost_reg ![![(0 : ℝ)]] ![(0 : ℝ)] ![(1 : ℝ)] 0 10
        > compute_cost_reg ![![(0 : ℝ)]] ![(0 : ℝ)] ![(1 : ℝ)] 0 0 :=
  ⟨by decide, by norm_num [Fin.sum_univ_one],
    compute_cost_reg_lambda_ten_gt_zero ![![(0 : ℝ)]] ![(0 : ℝ)] ![(1 : ℝ)] 0
      (by decide) (by norm_num [Fin.sum_univ_one])⟩

/-- C9: `gradient_descent` never writes to the caller's `w_in` array: in the
buffer-level model the caller's buffer still holds `w_in` after any number of
iterations, while the local `w` and `b` buffers agree with the values
`gradient_descent` returns. -/
theorem gradient_descent_preserves_w_in {m n : ℕ} (X : Fin m → Fin n → ℝ)
    (y : Fin m → ℝ) (w_in : Fin n → ℝ) (b_in : ℝ)
    (cost_function : CostFn m n) (gradient_function : GradFn m n)
    (alpha : ℝ) (num_iters : ℕ) (lambda_ : ℝ) :
    (gradient_descentBuf X y w_in b_in gradient_function alpha num_iters
        lambda_).caller = w_in ∧
      (gradient_descentBuf X y w_in b_in gradient_function alpha num_iters
          lambda_).w
        = (gradient_descent X y w_in b_in cost_function gradient_function
            alpha num_iters lambda_).1 ∧
      (gradient_descentBuf X y w_in b_in gradient_function alpha num_iters
          lambda_).b
        = (gradient_descent X y w_in b_in cost_function gradient_function
            alpha num_iters lambda_).2.1 := by
  have key : ∀ (k : ℕ) (s : GDBuffers n),
      ((gdStepBuf gradient_function X y alpha lambda_)^[k] s).caller
          = s.caller ∧
        ((gdStepBuf gradient_function X y alpha lambda_)^[k] s).w
          = ((gdStep gradient_function X y alpha lambda_)^[k] (s.w, s.b)).1 ∧
        ((gdStepBuf gradient_function X y alpha lambda_)^[k] s).b
          = ((gdStep gradient_function X y alpha lambda_)^[k] (s.w, s.b)).2 := by
    intro k
    induction k with
    | zero => intro s; exact ⟨rfl, rfl, rfl⟩
    | succ k ih =>
      intro s
      rcases ih (gdStepBuf gradient_function X y alpha lambda_ s) with
        ⟨h1, h2, h3⟩
      refine ⟨?_, ?_, ?_⟩
      · rw [Function.iterate_succ_apply, h1]
        rfl
      · rw [Function.iterate_succ_apply, h2, Function.iterate_succ_apply]
        rfl
      · rw [Function.iterate_succ_apply, h3, Function.iterate_succ_apply]
        rfl
  have hgd := gdLoop_eq_iterate cost_function gradient_function X y alpha
    lambda_ num_iters (w_in, b_in)
  rcases key num_iters { caller := w_in, w := w_in, b := b_in } with ⟨h1, h2, h3⟩
  simp only [gradient_descentBuf, gradient_descent]
  rw [hgd]
  exact ⟨h1, h2, h3⟩

end LogisticReg
